import Mathlib

/-!
Verification of the bilibili comment monitor's core (`src/server.py`):
the credential-rotating retry engine (`CredentialPool`), the backfill
loop, the incremental polling/deduplication loop of `fetch_task`, and
the persistence helper `save_comments_to_mongodb`, shallowly embedded
as executable Lean definitions.
-/

namespace BiliMonitor

/-- Exceptions of the Python source, as far as `execute_with_retry`
classifies them: `ResponseCodeException` and `ApiException` (both from
`bilibili_api.exceptions`) drive credential rotation; every other
exception is re-raised at once. -/
inductive PyError where
  | responseCode : Nat → PyError
  | api : String → PyError
  | other : String → PyError
  deriving DecidableEq, Repr

/-- Whether `execute_with_retry`'s first `except` clause catches the
error (`except (ResponseCodeException, ApiException)`). -/
def retryable : PyError → Bool
  | .responseCode _ => true
  | .api _ => true
  | .other _ => false

/-- The keyword arguments of one call: the `credential` entry (which
`execute_with_retry` overwrites) and the rest of the arguments. -/
structure KwArgs (Cred Arg : Type) where
  credential : Option Cred
  args : Arg
  deriving DecidableEq, Repr

/-- `CredentialPool.__init__`: the ordered credential list and the
state of the `itertools.cycle` iterator (number of `next` calls so
far; the iterator yields `credentials[cursor % len]`). -/
structure CredentialPool (Cred : Type) where
  credentials : List Cred
  cursor : Nat
  deriving DecidableEq, Repr

/-- `self.total = len(self.credentials)`. -/
def CredentialPool.total (p : CredentialPool Cred) : Nat :=
  p.credentials.length

/-- `CredentialPool.get_next`: raises `"No credentials configured"` on
an empty list, otherwise yields the next credential of the cycle and
advances the shared cursor. -/
def CredentialPool.get_next [Inhabited Cred] (p : CredentialPool Cred) :
    Except PyError (Cred × CredentialPool Cred) :=
  if p.credentials.isEmpty then
    .error (.other "No credentials configured")
  else
    .ok (p.credentials.getD (p.cursor % p.credentials.length) default,
      { p with cursor := p.cursor + 1 })

/-- What one run of `execute_with_retry` did: the returned value or
raised exception (`.ok none` is Python's implicit `return None`, which
happens exactly when the loop body never runs), how many times the
wrapped operation was invoked, how many `asyncio.sleep(0.5)` backoffs
ran, the keyword arguments of each invocation in order, and the pool
after the shared cursor advanced. -/
structure RetryOutcome (Cred Arg α : Type) where
  result : Except PyError (Option α)
  attempts : Nat
  sleeps : Nat
  calls : List (KwArgs Cred Arg)
  pool : CredentialPool Cred
  deriving Repr

/-- The `for _ in range(self.total)` loop of
`CredentialPool.execute_with_retry`, with `fuel` iterations left,
threading `last_error` and the instrumentation counters. -/
def execLoop [Inhabited Cred] (f : KwArgs Cred Arg → Except PyError α)
    (kw : KwArgs Cred Arg) :
    Nat → CredentialPool Cred → Option PyError → Nat → Nat →
      List (KwArgs Cred Arg) → RetryOutcome Cred Arg α
  | 0, pool, lastError, attempts, sleeps, calls =>
    match lastError with
    | some e => ⟨.error e, attempts, sleeps, calls, pool⟩
    | none => ⟨.ok none, attempts, sleeps, calls, pool⟩
  | fuel + 1, pool, lastError, attempts, sleeps, calls =>
    match pool.get_next with
    | .error e => ⟨.error e, attempts, sleeps, calls, pool⟩
    | .ok (cred, pool') =>
      let kw' : KwArgs Cred Arg := { kw with credential := some cred }
      match f kw' with
      | .ok v => ⟨.ok (some v), attempts + 1, sleeps, calls ++ [kw'], pool'⟩
      | .error e =>
        if retryable e then
          execLoop f kw fuel pool' (some e) (attempts + 1) (sleeps + 1)
            (calls ++ [kw'])
        else
          ⟨.error e, attempts + 1, sleeps, calls ++ [kw'], pool'⟩

/-- `CredentialPool.execute_with_retry(func, *args, **kwargs)`: tries
one full rotation of the pool, injecting `kwargs['credential'] = cred`
before each invocation; after the loop raises the last recorded
retryable error, or returns `None` when there was none. -/
def execute_with_retry [Inhabited Cred] (pool : CredentialPool Cred)
    (f : KwArgs Cred Arg → Except PyError α) (kw : KwArgs Cred Arg) :
    RetryOutcome Cred Arg α :=
  execLoop f kw pool.total pool none 0 0 []

/-- The credential handed out by the `i`-th `get_next` call of one
`execute_with_retry` run on `pool`. -/
def credAt [Inhabited Cred] (pool : CredentialPool Cred) (i : Nat) : Cred :=
  pool.credentials.getD ((pool.cursor + i) % pool.credentials.length) default

/-! ## The polling engine (`fetch_task`) -/

/-- One feed item as far as the monitor's dedup/ordering logic reads
it: its unique identifier `rpid` and creation time `ctime`. -/
structure Reply where
  rpid : Nat
  ctime : Nat
  deriving DecidableEq, Repr

/-- The incremental loop's scan over the fetched feed page
(`for r in replies: if r['rpid'] > monitor_state.last_rpid: ... else:
break`): collects the prefix of items whose identifier is strictly
above the high-water mark, stopping at the first that is not. -/
def collectNew (lastRpid : Nat) : List Reply → List Reply
  | [] => []
  | r :: rest =>
    if lastRpid < r.rpid then r :: collectNew lastRpid rest else []

/-- One incremental cycle's effect on the high-water mark and the
broadcast batch: when the scan finds new comments, the mark becomes
`max(last_rpid, max_id)` and `list(reversed(new_comments))` is
broadcast; otherwise nothing changes and nothing is broadcast. -/
def cycleStep (lastRpid : Nat) (replies : List Reply) : Nat × List Reply :=
  let newComments := collectNew lastRpid replies
  if newComments.isEmpty then
    (lastRpid, [])
  else
    let maxId := (newComments.map Reply.rpid).foldl Nat.max 0
    (Nat.max lastRpid maxId, newComments.reverse)

/-- Why the backfill page loop of `fetch_task` stopped. -/
inductive StopReason where
  | emptyPage
  | totalReached
  | pageCap
  deriving DecidableEq, Repr

/-- `max_pages = 100` of `fetch_task`. -/
def max_pages : Nat := 100

/-- The `while page <= max_pages` backfill loop of `fetch_task`, fed
by `pages : pageIndex → (replies, total_count)` (the successful result
of each `comment.get_comments` call): stops on an empty page, when the
accumulated replies reach the reported total, or when the page index
passes the cap; `fuel` is `max_pages - page + 1`.  Returns the
accumulated replies, the final value of `page`, and why it stopped. -/
def backfillAux (pages : Nat → List Reply × Nat) :
    Nat → Nat → List Reply → List Reply × Nat × StopReason
  | 0, page, acc => (acc, page, .pageCap)
  | fuel + 1, page, acc =>
    if (pages page).1.isEmpty then
      (acc, page, .emptyPage)
    else
      let acc' := acc ++ (pages page).1
      if (pages page).2 ≤ acc'.length then
        (acc', page, .totalReached)
      else
        backfillAux pages fuel (page + 1) acc'

/-- The backfill loop from `page = 1` with the cap of 100 pages. -/
def backfill (pages : Nat → List Reply × Nat) :
    List Reply × Nat × StopReason :=
  backfillAux pages max_pages 1 []

/-- The replies of pages `1..p` in order, as the loop accumulates
them into `all_replies`. -/
def accUpTo (pages : Nat → List Reply × Nat) (p : Nat) : List Reply :=
  ((List.range p).map (fun i => (pages (i + 1)).1)).flatten

/-! ## The initial snapshot (`latest_comments`) -/

/-- One entry of `initial_comments`: the formatted comment the
frontend receives, reduced to the fields the snapshot ordering reads
(`rpid` and the formatted `time`, which for integer-second `ctime`
values is order-isomorphic to `ctime`). -/
structure CommentInfo where
  rpid : Nat
  time : Nat
  deriving DecidableEq, Repr

/-- Key order of `all_replies.sort(key=lambda x: x['ctime'])`. -/
def ctimeLe (a b : Reply) : Prop := a.ctime ≤ b.ctime

instance : DecidableRel ctimeLe := fun a b => Nat.decLe a.ctime b.ctime

instance : IsTotal Reply ctimeLe := ⟨fun a b => Nat.le_total a.ctime b.ctime⟩

instance : IsTrans Reply ctimeLe := ⟨fun _ _ _ h h' => Nat.le_trans h h'⟩

/-- Key order of `sorted(initial_comments, key=lambda x: x['time'],
reverse=True)`: `a` may stay before `b` iff `a` is at least as
recent. -/
def timeGe (a b : CommentInfo) : Prop := b.time ≤ a.time

instance : DecidableRel timeGe := fun a b => Nat.decLe b.time a.time

instance : IsTotal CommentInfo timeGe := ⟨fun a b => Nat.le_total b.time a.time⟩

instance : IsTrans CommentInfo timeGe := ⟨fun _ _ _ h h' => Nat.le_trans h' h⟩

/-- Formatting one reply for the frontend (the fields the ordering
logic uses). -/
def toInfo (r : Reply) : CommentInfo :=
  ⟨r.rpid, r.ctime⟩

/-- `initial_comments`: the working set sorted by `ctime` ascending
(Python's stable `list.sort`, modelled by the stable
`List.insertionSort`) and formatted. -/
def initialComments (allReplies : List Reply) : List CommentInfo :=
  (allReplies.insertionSort ctimeLe).map toInfo

/-- `latest_comments = list(reversed(sorted(initial_comments,
key=lambda x: x['time'], reverse=True)[:20]))`: the stable
time-descending sort (modelled by `List.insertionSort` on `timeGe`),
its first 20 entries, reversed. -/
def latestComments (allReplies : List Reply) : List CommentInfo :=
  (((initialComments allReplies).insertionSort timeGe).take 20).reverse

/-! ## Persistence (`save_comments_to_mongodb`) -/

/-- The member fields of a raw comment dict that the save routine
reads (`uname`, `mid`, optional `sex`, `level_info.current_level`,
optional `fans_detail.medal_name`). -/
structure RawMember where
  uname : String
  mid : Nat
  sex : Option String
  current_level : Nat
  medal_name : Option String
  deriving DecidableEq, Repr

/-- A raw comment dict as `save_comments_to_mongodb` reads it;
`location` is `reply_control.location` when `reply_control` is
present and truthy. -/
structure RawComment where
  rpid : Nat
  member : RawMember
  message : String
  ctime : Nat
  like : Nat
  rcount : Nat
  parent : Nat
  root : Nat
  location : Option String
  deriving DecidableEq, Repr

/-- The document written per comment (`doc` in the source);
`fetched_at` holds the wall clock passed in as `now`. -/
structure CommentDoc where
  rpid : Nat
  oid : Nat
  bvid : String
  user : String
  mid : Nat
  content : String
  ctime : Nat
  sex : String
  location : String
  level : Nat
  likes : Nat
  rcount : Nat
  fans_medal : String
  parent : Nat
  root : Nat
  fetched_at : Nat
  deriving DecidableEq, Repr

/-- The per-video metadata document of the `video_metadata`
collection. -/
structure MetaDoc where
  bvid : String
  oid : Nat
  title : String
  last_updated : Nat
  comment_count : Nat
  collection_name : String
  deriving DecidableEq, Repr

/-- The MongoDB state the save routine touches: each comment
collection keyed by name as an `rpid`-keyed association list (the
collections carry a unique index on `rpid`), and the `video_metadata`
collection keyed by `bvid`. -/
structure MongoState where
  collections : String → List (Nat × CommentDoc)
  video_metadata : List (String × MetaDoc)

/-- `collection.update_one({"rpid": ...}, {"$set": doc}, upsert=True)`
on one rpid-keyed collection: replaces the matching record or appends
a new one. -/
def upsertDoc : List (Nat × CommentDoc) → CommentDoc → List (Nat × CommentDoc)
  | [], d => [(d.rpid, d)]
  | (k, old) :: rest, d =>
    if k = d.rpid then (k, d) :: rest else (k, old) :: upsertDoc rest d

/-- The metadata upsert keyed on `bvid`. -/
def upsertMeta : List (String × MetaDoc) → MetaDoc → List (String × MetaDoc)
  | [], d => [(d.bvid, d)]
  | (k, old) :: rest, d =>
    if k = d.bvid then (k, d) :: rest else (k, old) :: upsertMeta rest d

/-- Building `doc` from one raw comment (the dict literal of the
source, with the `.get` defaults `'保密'`, `''`, `0`). -/
def mkDoc (c : RawComment) (bvid : String) (oid : Nat) (now : Nat) : CommentDoc :=
  { rpid := c.rpid
    oid := oid
    bvid := bvid
    user := c.member.uname
    mid := c.member.mid
    content := c.message
    ctime := c.ctime
    sex := c.member.sex.getD "保密"
    location := c.location.getD ""
    level := c.member.current_level
    likes := c.like
    rcount := c.rcount
    fans_medal := c.member.medal_name.getD ""
    parent := c.parent
    root := c.root
    fetched_at := now }

/-- Applying an update to the one named collection of the state. -/
def updateColl (db : MongoState) (name : String)
    (f : List (Nat × CommentDoc) → List (Nat × CommentDoc)) : MongoState :=
  { db with collections := fun n =>
      if n = name then f (db.collections n) else db.collections n }

/-- `save_comments_to_mongodb(comments_data, bvid, oid, title)`: on an
empty batch returns 0 at once; otherwise upserts every comment into
`comments_{bvid}` (each successful upsert bumping `saved_count`; the
embedding has no missing-field exceptions, so all succeed), then
upserts the per-video metadata record with the collection's new
document count, and returns `saved_count` with the new state. -/
def save_comments_to_mongodb (comments_data : List RawComment)
    (bvid : String) (oid : Nat) (title : String) (now : Nat)
    (db : MongoState) : Nat × MongoState :=
  if comments_data.isEmpty then
    (0, db)
  else
    let coll_name := "comments_" ++ bvid
    let db1 := comments_data.foldl
      (fun s c => updateColl s coll_name (fun coll => upsertDoc coll (mkDoc c bvid oid now))) db
    let saved_count := comments_data.length
    let meta : MetaDoc :=
      ⟨bvid, oid, title, now, (db1.collections coll_name).length, coll_name⟩
    (saved_count, { db1 with video_metadata := upsertMeta db1.video_metadata meta })

/-! ## Theorems -/

/-- Unfolding one iteration of the retry loop when the pool is
non-empty. -/
theorem execLoop_succ [Inhabited Cred] (f : KwArgs Cred Arg → Except PyError α)
    (kw : KwArgs Cred Arg) (n : Nat) (pool : CredentialPool Cred)
    (hne : pool.credentials.isEmpty = false) (le : Option PyError)
    (a s : Nat) (calls : List (KwArgs Cred Arg)) :
    execLoop f kw (n + 1) pool le a s calls =
      (match f { kw with credential := some (credAt pool 0) } with
      | .ok v => ⟨.ok (some v), a + 1, s,
          calls ++ [{ kw with credential := some (credAt pool 0) }],
          { pool with cursor := pool.cursor + 1 }⟩
      | .error e =>
        if retryable e then
          execLoop f kw n { pool with cursor := pool.cursor + 1 } (some e)
            (a + 1) (s + 1) (calls ++ [{ kw with credential := some (credAt pool 0) }])
        else
          ⟨.error e, a + 1, s,
            calls ++ [{ kw with credential := some (credAt pool 0) }],
            { pool with cursor := pool.cursor + 1 }⟩) := by
  simp [execLoop, CredentialPool.get_next, hne, credAt]

/-- Advancing the pool's cursor shifts `credAt` by one. -/
theorem credAt_succ [Inhabited Cred] (pool : CredentialPool Cred) (i : Nat) :
    credAt { pool with cursor := pool.cursor + 1 } i = credAt pool (i + 1) := by
  simp [credAt, Nat.add_assoc, Nat.add_comm 1 i]

/-- A non-empty pool, seen through `isEmpty`. -/
theorem isEmpty_false_of_total_pos (pool : CredentialPool Cred)
    (h : 1 ≤ pool.total) : pool.credentials.isEmpty = false := by
  cases hc : pool.credentials with
  | nil => rw [CredentialPool.total, hc] at h; simp at h
  | cons x xs => simp

/-- When every invocation fails retryably (with the failure a function
of the injected credential), the loop burns all its fuel and ends with
the failure of the last credential tried. -/
theorem execLoop_allFail [Inhabited Cred] (f : KwArgs Cred Arg → Except PyError α)
    (kw : KwArgs Cred Arg) (errOf : Cred → PyError)
    (hr : ∀ c, retryable (errOf c) = true)
    (hf : ∀ c, f { kw with credential := some c } = .error (errOf c)) :
    ∀ (fuel : Nat), 1 ≤ fuel → ∀ (pool : CredentialPool Cred),
      pool.credentials.isEmpty = false →
      ∀ (le : Option PyError) (a s : Nat) (calls : List (KwArgs Cred Arg)),
        (execLoop f kw fuel pool le a s calls).attempts = a + fuel ∧
        (execLoop f kw fuel pool le a s calls).result =
          .error (errOf (credAt pool (fuel - 1))) := by
  intro fuel
  induction fuel with
  | zero => intro h; exact absurd h (by decide)
  | succ n ih =>
    intro _ pool hne le a s calls
    rw [execLoop_succ f kw n pool hne le a s calls]
    rw [hf (credAt pool 0)]
    simp only [hr (credAt pool 0), if_true]
    cases n with
    | zero => exact ⟨rfl, rfl⟩
    | succ m =>
      refine ⟨?_, ?_⟩
      · rw [(ih (by omega) { pool with cursor := pool.cursor + 1 } hne _ _ _ _).1]
        omega
      · rw [(ih (by omega) { pool with cursor := pool.cursor + 1 } hne _ _ _ _).2,
          credAt_succ]
        simp

/-- C1: on a pool of `N ≥ 1` credentials, an operation that raises a
classified-retryable failure for every credential is invoked exactly
`N` times — one full rotation — and `execute_with_retry` then raises
the failure recorded on the last attempt (the one of the `N`-th
credential tried). -/
theorem c1_exhaustion [Inhabited Cred] (pool : CredentialPool Cred)
    (f : KwArgs Cred Arg → Except PyError α) (kw : KwArgs Cred Arg)
    (errOf : Cred → PyError) (hN : 1 ≤ pool.total)
    (hr : ∀ c, retryable (errOf c) = true)
    (hf : ∀ c, f { kw with credential := some c } = .error (errOf c)) :
    (execute_with_retry pool f kw).attempts = pool.total ∧
    (execute_with_retry pool f kw).result =
      .error (errOf (credAt pool (pool.total - 1))) := by
  have h := execLoop_allFail f kw errOf hr hf pool.total hN pool
    (isEmpty_false_of_total_pos pool hN) none 0 0 []
  simpa [execute_with_retry] using h

/-- C1 at a concrete input: a pool of two credentials, an operation
failing with `ApiException` on both — two attempts, the error
raised. -/
theorem c1_exhaustion_witness :
    (execute_with_retry (⟨[7, 8], 0⟩ : CredentialPool Nat)
      (fun _ : KwArgs Nat Unit => (.error (.api "boom") : Except PyError Nat))
      ⟨none, ()⟩).attempts = 2 ∧
    (execute_with_retry (⟨[7, 8], 0⟩ : CredentialPool Nat)
      (fun _ : KwArgs Nat Unit => (.error (.api "boom") : Except PyError Nat))
      ⟨none, ()⟩).result = .error (.api "boom") :=
  c1_exhaustion ⟨[7, 8], 0⟩
    (fun _ : KwArgs Nat Unit => (.error (.api "boom") : Except PyError Nat))
    ⟨none, ()⟩ (fun _ => .api "boom") (by decide) (fun _ => rfl) (fun _ => rfl)

/-- When the operation fails retryably on the credentials of the
first `k - 1` attempts and succeeds on the `k`-th, the loop performs
exactly `k` invocations and returns the `k`-th result. -/
theorem execLoop_succeedsAt [Inhabited Cred] (f : KwArgs Cred Arg → Except PyError α)
    (kw : KwArgs Cred Arg) (v : α) :
    ∀ (k : Nat), 1 ≤ k → ∀ (fuel : Nat), k ≤ fuel → ∀ (pool : CredentialPool Cred),
      pool.credentials.isEmpty = false →
      (∀ i, i < k - 1 → ∃ e, retryable e = true ∧
        f { kw with credential := some (credAt pool i) } = .error e) →
      f { kw with credential := some (credAt pool (k - 1)) } = .ok v →
      ∀ (le : Option PyError) (a s : Nat) (calls : List (KwArgs Cred Arg)),
        (execLoop f kw fuel pool le a s calls).attempts = a + k ∧
        (execLoop f kw fuel pool le a s calls).result = .ok (some v) := by
  intro k
  induction k with
  | zero => intro h; exact absurd h (by decide)
  | succ n ih =>
    intro _ fuel hfuel pool hne hfail hsucc le a s calls
    obtain ⟨fuel', rfl⟩ : ∃ m, fuel = m + 1 := ⟨fuel - 1, by omega⟩
    rw [execLoop_succ f kw fuel' pool hne le a s calls]
    cases n with
    | zero =>
      have hs : f { kw with credential := some (credAt pool 0) } = .ok v := by
        simpa using hsucc
      rw [hs]
      exact ⟨rfl, rfl⟩
    | succ m =>
      obtain ⟨e, hre, hfe⟩ := hfail 0 (by omega)
      rw [hfe]
      simp only [hre, if_true]
      have hfail' : ∀ i, i < m + 1 - 1 → ∃ e', retryable e' = true ∧
          f { kw with
            credential := some (credAt { pool with cursor := pool.cursor + 1 } i) } =
            .error e' := by
        intro i hi
        have h := hfail (i + 1) (by omega)
        simpa [credAt_succ] using h
      have hsucc' : f { kw with
          credential := some (credAt { pool with cursor := pool.cursor + 1 } (m + 1 - 1)) } =
          .ok v := by
        simpa [credAt_succ] using hsucc
      have h2 := ih (by omega) fuel' (by omega)
        { pool with cursor := pool.cursor + 1 } hne hfail' hsucc' (some e)
        (a + 1) (s + 1) (calls ++ [{ kw with credential := some (credAt pool 0) }])
      exact ⟨by rw [h2.1]; omega, h2.2⟩

/-- C2: when the operation fails retryably on the first `k - 1`
credentials tried and succeeds on the `k`-th (with `k` at most the
pool size), `execute_with_retry` invokes the operation exactly `k`
times and returns the `k`-th invocation's result. -/
theorem c2_success [Inhabited Cred] (pool : CredentialPool Cred)
    (f : KwArgs Cred Arg → Except PyError α) (kw : KwArgs Cred Arg)
    (k : Nat) (v : α) (hk1 : 1 ≤ k) (hk : k ≤ pool.total)
    (hfail : ∀ i, i < k - 1 → ∃ e, retryable e = true ∧
      f { kw with credential := some (credAt pool i) } = .error e)
    (hsucc : f { kw with credential := some (credAt pool (k - 1)) } = .ok v) :
    (execute_with_retry pool f kw).attempts = k ∧
    (execute_with_retry pool f kw).result = .ok (some v) := by
  have h := execLoop_succeedsAt f kw v k hk1 pool.total hk pool
    (isEmpty_false_of_total_pos pool (Nat.le_trans hk1 hk)) hfail hsucc none 0 0 []
  simpa [execute_with_retry] using h

/-- C2 at a concrete input: three credentials, the first attempt
throttled, the second succeeding with 42 — two attempts, result 42,
third credential untouched. -/
theorem c2_success_witness :
    (execute_with_retry (⟨[1, 2, 3], 0⟩ : CredentialPool Nat)
      (fun kwa : KwArgs Nat Unit =>
        if kwa.credential = some 1 then (.error (.responseCode 412) : Except PyError Nat)
        else .ok 42)
      ⟨none, ()⟩).attempts = 2 ∧
    (execute_with_retry (⟨[1, 2, 3], 0⟩ : CredentialPool Nat)
      (fun kwa : KwArgs Nat Unit =>
        if kwa.credential = some 1 then (.error (.responseCode 412) : Except PyError Nat)
        else .ok 42)
      ⟨none, ()⟩).result = .ok (some 42) :=
  c2_success ⟨[1, 2, 3], 0⟩
    (fun kwa : KwArgs Nat Unit =>
      if kwa.credential = some 1 then (.error (.responseCode 412) : Except PyError Nat)
      else .ok 42)
    ⟨none, ()⟩ 2 42 (by decide) (by decide)
    (fun i hi => ⟨.responseCode 412, rfl, by
      interval_cases i
      rfl⟩)
    (by rfl)

/-- When the operation fails retryably on the first `j` credentials
and raises a non-classified error on attempt `j + 1`, the loop stops
there: `j + 1` invocations, the error propagated, and only the `j`
backoff sleeps that preceded it. -/
theorem execLoop_failFast [Inhabited Cred] (f : KwArgs Cred Arg → Except PyError α)
    (kw : KwArgs Cred Arg) (e : PyError) (hnr : retryable e = false) :
    ∀ (j : Nat), ∀ (fuel : Nat), j < fuel → ∀ (pool : CredentialPool Cred),
      pool.credentials.isEmpty = false →
      (∀ i, i < j → ∃ e', retryable e' = true ∧
        f { kw with credential := some (credAt pool i) } = .error e') →
      f { kw with credential := some (credAt pool j) } = .error e →
      ∀ (le : Option PyError) (a s : Nat) (calls : List (KwArgs Cred Arg)),
        (execLoop f kw fuel pool le a s calls).attempts = a + j + 1 ∧
        (execLoop f kw fuel pool le a s calls).result = .error e ∧
        (execLoop f kw fuel pool le a s calls).sleeps = s + j := by
  intro j
  induction j with
  | zero =>
    intro fuel hfuel pool hne hfail hj le a s calls
    obtain ⟨fuel', rfl⟩ : ∃ m, fuel = m + 1 := ⟨fuel - 1, by omega⟩
    rw [execLoop_succ f kw fuel' pool hne le a s calls]
    rw [hj]
    simp [hnr]
  | succ m ih =>
    intro fuel hfuel pool hne hfail hj le a s calls
    obtain ⟨fuel', rfl⟩ : ∃ m', fuel = m' + 1 := ⟨fuel - 1, by omega⟩
    rw [execLoop_succ f kw fuel' pool hne le a s calls]
    obtain ⟨e', hre, hfe⟩ := hfail 0 (by omega)
    rw [hfe]
    simp only [hre, if_true]
    have hfail' : ∀ i, i < m → ∃ e'', retryable e'' = true ∧
        f { kw with
          credential := some (credAt { pool with cursor := pool.cursor + 1 } i) } =
          .error e'' := by
      intro i hi
      have h := hfail (i + 1) (by omega)
      simpa [credAt_succ] using h
    have hj' : f { kw with
        credential := some (credAt { pool with cursor := pool.cursor + 1 } m) } =
        .error e := by
      simpa [credAt_succ] using hj
    have h2 := ih fuel' (by omega) { pool with cursor := pool.cursor + 1 } hne
      hfail' hj' (some e') (a + 1) (s + 1)
      (calls ++ [{ kw with credential := some (credAt pool 0) }])
    exact ⟨by rw [h2.1]; omega, h2.2.1, by rw [h2.2.2]; omega⟩

/-- C4: a failure that is not a `ResponseCodeException`/`ApiException`
propagates immediately out of `execute_with_retry`: the loop performs
no further invocations past it and runs no backoff sleep after it (the
sleep count stays at the `j` retryable failures that preceded it). -/
theorem c4_fail_fast [Inhabited Cred] (pool : CredentialPool Cred)
    (f : KwArgs Cred Arg → Except PyError α) (kw : KwArgs Cred Arg)
    (j : Nat) (e : PyError) (hj : j < pool.total) (hnr : retryable e = false)
    (hfail : ∀ i, i < j → ∃ e', retryable e' = true ∧
      f { kw with credential := some (credAt pool i) } = .error e')
    (hother : f { kw with credential := some (credAt pool j) } = .error e) :
    (execute_with_retry pool f kw).attempts = j + 1 ∧
    (execute_with_retry pool f kw).result = .error e ∧
    (execute_with_retry pool f kw).sleeps = j := by
  have h := execLoop_failFast f kw e hnr j pool.total hj pool
    (isEmpty_false_of_total_pos pool (by omega)) hfail hother none 0 0 []
  simpa [execute_with_retry] using h

/-- C4 at a concrete input: first credential throttled, second hits an
unknown error — two invocations, the unknown error raised, one sleep
only (before the fatal attempt, none after). -/
theorem c4_fail_fast_witness :
    (execute_with_retry (⟨[1, 2, 3], 0⟩ : CredentialPool Nat)
      (fun kwa : KwArgs Nat Unit =>
        if kwa.credential = some 1 then (.error (.api "throttled") : Except PyError Nat)
        else .error (.other "connection reset"))
      ⟨none, ()⟩).attempts = 2 ∧
    (execute_with_retry (⟨[1, 2, 3], 0⟩ : CredentialPool Nat)
      (fun kwa : KwArgs Nat Unit =>
        if kwa.credential = some 1 then (.error (.api "throttled") : Except PyError Nat)
        else .error (.other "connection reset"))
      ⟨none, ()⟩).result = .error (.other "connection reset") ∧
    (execute_with_retry (⟨[1, 2, 3], 0⟩ : CredentialPool Nat)
      (fun kwa : KwArgs Nat Unit =>
        if kwa.credential = some 1 then (.error (.api "throttled") : Except PyError Nat)
        else .error (.other "connection reset"))
      ⟨none, ()⟩).sleeps = 1 :=
  c4_fail_fast ⟨[1, 2, 3], 0⟩
    (fun kwa : KwArgs Nat Unit =>
      if kwa.credential = some 1 then (.error (.api "throttled") : Except PyError Nat)
      else .error (.other "connection reset"))
    ⟨none, ()⟩ 1 (.other "connection reset") (by decide) rfl
    (fun i hi => ⟨.api "throttled", rfl, by
      interval_cases i
      rfl⟩)
    (by rfl)

/-- The loop never forgets an attempt: the attempt counter only
grows. -/
theorem execLoop_attempts_ge [Inhabited Cred] (f : KwArgs Cred Arg → Except PyError α)
    (kw : KwArgs Cred Arg) :
    ∀ (fuel : Nat) (pool : CredentialPool Cred) (le : Option PyError)
      (a s : Nat) (calls : List (KwArgs Cred Arg)),
      a ≤ (execLoop f kw fuel pool le a s calls).attempts := by
  intro fuel
  induction fuel with
  | zero =>
    intro pool le a s calls
    cases le <;> exact Nat.le_refl a
  | succ n ih =>
    intro pool le a s calls
    cases hemp : pool.credentials.isEmpty with
    | true => simp [execLoop, CredentialPool.get_next, hemp]
    | false =>
      rw [execLoop_succ f kw n pool hemp le a s calls]
      cases hf : f { kw with credential := some (credAt pool 0) } with
      | ok v => exact Nat.le_succ a
      | error e =>
        by_cases hre : retryable e = true
        · simp only [hre, if_true]
          exact Nat.le_trans (Nat.le_succ a) (ih _ _ _ _ _)
        · simp only [hre, if_false]
          exact Nat.le_succ a

/-- The outcome of the retry loop does not depend on the
`credential` entry the caller placed in the keyword arguments: it is
overwritten before every invocation. -/
theorem execLoop_credential_irrel [Inhabited Cred]
    (f : KwArgs Cred Arg → Except PyError α) (arg : Arg) (c1 c2 : Option Cred) :
    ∀ (fuel : Nat) (pool : CredentialPool Cred) (le : Option PyError)
      (a s : Nat) (calls : List (KwArgs Cred Arg)),
      execLoop f ⟨c1, arg⟩ fuel pool le a s calls =
        execLoop f ⟨c2, arg⟩ fuel pool le a s calls := by
  intro fuel
  induction fuel with
  | zero => intro pool le a s calls; rfl
  | succ n ih =>
    intro pool le a s calls
    simp only [execLoop]
    cases hg : pool.get_next with
    | error e => rfl
    | ok cp =>
      obtain ⟨cred, pool'⟩ := cp
      dsimp only
      cases hf : f ⟨some cred, arg⟩ with
      | ok v => rfl
      | error e =>
        by_cases hre : retryable e = true
        · simp only [hre, if_true]
          exact ih _ _ _ _ _
        · simp [hre]

/-- The keyword arguments of each invocation, in order: attempt `i`
receives the pool's `i`-th cycled credential, the caller's other
arguments untouched. -/
theorem execLoop_calls [Inhabited Cred] (f : KwArgs Cred Arg → Except PyError α)
    (kw : KwArgs Cred Arg) :
    ∀ (fuel : Nat) (pool : CredentialPool Cred) (le : Option PyError)
      (a s : Nat) (calls : List (KwArgs Cred Arg)),
      (execLoop f kw fuel pool le a s calls).calls =
        calls ++ (List.range ((execLoop f kw fuel pool le a s calls).attempts - a)).map
          (fun i => { kw with credential := some (credAt pool i) }) := by
  intro fuel
  induction fuel with
  | zero =>
    intro pool le a s calls
    cases le <;> simp [execLoop]
  | succ n ih =>
    intro pool le a s calls
    cases hemp : pool.credentials.isEmpty with
    | true => simp [execLoop, CredentialPool.get_next, hemp]
    | false =>
      rw [execLoop_succ f kw n pool hemp le a s calls]
      cases hf : f { kw with credential := some (credAt pool 0) } with
      | ok v => simp [List.range_succ]
      | error e =>
        by_cases hre : retryable e = true
        · simp only [hre, if_true]
          rw [ih]
          have hge : a + 1 ≤ (execLoop f kw n { pool with cursor := pool.cursor + 1 }
              (some e) (a + 1) (s + 1)
              (calls ++ [{ kw with credential := some (credAt pool 0) }])).attempts :=
            execLoop_attempts_ge f kw n _ _ _ _ _
          have hsub : (execLoop f kw n { pool with cursor := pool.cursor + 1 }
              (some e) (a + 1) (s + 1)
              (calls ++ [{ kw with credential := some (credAt pool 0) }])).attempts - a =
              ((execLoop f kw n { pool with cursor := pool.cursor + 1 }
                (some e) (a + 1) (s + 1)
                (calls ++ [{ kw with credential := some (credAt pool 0) }])).attempts -
                (a + 1)) + 1 := by
            omega
          rw [hsub, List.range_succ_eq_map, List.map_cons, List.map_map]
          have hfun : ((fun i => { kw with credential := some (credAt pool i) }) ∘ Nat.succ) =
              (fun i => { kw with
                credential := some (credAt { pool with cursor := pool.cursor + 1 } i) }) := by
            funext i
            simp [Function.comp, credAt_succ]
          rw [hfun]
          simp
        · simp only [hre, if_false]
          simp [List.range_succ]

/-- C9: `execute_with_retry` overwrites the `credential` keyword
argument with the pool's next credential before every invocation: the
operation only ever sees `credential = some (credAt pool i)` on
attempt `i` (the caller's other arguments untouched), and the whole
outcome is independent of whatever credential the caller supplied. -/
theorem c9_credential_override [Inhabited Cred] (pool : CredentialPool Cred)
    (f : KwArgs Cred Arg → Except PyError α) (arg : Arg) (c1 c2 : Option Cred) :
    execute_with_retry pool f ⟨c1, arg⟩ = execute_with_retry pool f ⟨c2, arg⟩ ∧
    (execute_with_retry pool f ⟨c1, arg⟩).calls =
      (List.range (execute_with_retry pool f ⟨c1, arg⟩).attempts).map
        (fun i => ⟨some (credAt pool i), arg⟩) := by
  constructor
  · exact execLoop_credential_irrel f arg c1 c2 pool.total pool none 0 0 []
  · have h := execLoop_calls f ⟨c1, arg⟩ pool.total pool none 0 0 []
    simpa [execute_with_retry] using h

/-- C5: in every incremental cycle the feed page is scanned front to
back, an item is classified new exactly while every item so far is
strictly above the high-water mark (the scan is a `takeWhile`), and on
the feed `[108, 107, 106, 90]` with mark 100 the new items are
`{108, 107, 106}`, the mark becomes 108, and the broadcast batch is
`[106, 107, 108]` (oldest-first). -/
theorem c5_incremental_classification :
    (∀ (hwm : Nat) (replies : List Reply),
      collectNew hwm replies = replies.takeWhile (fun r => decide (hwm < r.rpid))) ∧
    (collectNew 100 [⟨108, 8⟩, ⟨107, 7⟩, ⟨106, 6⟩, ⟨90, 5⟩]).map Reply.rpid =
      [108, 107, 106] ∧
    (cycleStep 100 [⟨108, 8⟩, ⟨107, 7⟩, ⟨106, 6⟩, ⟨90, 5⟩]).1 = 108 ∧
    ((cycleStep 100 [⟨108, 8⟩, ⟨107, 7⟩, ⟨106, 6⟩, ⟨90, 5⟩]).2).map Reply.rpid =
      [106, 107, 108] := by
  refine ⟨?_, by decide, by decide, by decide⟩
  intro hwm replies
  induction replies with
  | nil => rfl
  | cons r rest ih =>
    by_cases h : hwm < r.rpid
    · simp [collectNew, List.takeWhile_cons, h, ih]
    · simp [collectNew, List.takeWhile_cons, h]

/-- C6: the high-water mark (`last_rpid`) never decreases: one
incremental cycle maps it to a value at least as large, and hence it
is non-decreasing across any sequence of cycles with any feed
contents. -/
theorem c6_hwm_monotone :
    (∀ (hwm : Nat) (replies : List Reply), hwm ≤ (cycleStep hwm replies).1) ∧
    (∀ (hwm : Nat) (cycles : List (List Reply)),
      hwm ≤ cycles.foldl (fun h rs => (cycleStep h rs).1) hwm) := by
  have hstep : ∀ (hwm : Nat) (replies : List Reply), hwm ≤ (cycleStep hwm replies).1 := by
    intro hwm replies
    by_cases h : (collectNew hwm replies).isEmpty
    · simp [cycleStep, h]
    · simp [cycleStep, h, Nat.le_max_left]
  refine ⟨hstep, ?_⟩
  intro hwm cycles
  induction cycles generalizing hwm with
  | nil => exact Nat.le_refl hwm
  | cons c cs ih => exact Nat.le_trans (hstep hwm c) (ih _)

/-- Accumulated pages extend one page at a time. -/
theorem accUpTo_succ (pages : Nat → List Reply × Nat) (p : Nat) :
    accUpTo pages (p + 1) = accUpTo pages p ++ (pages (p + 1)).1 := by
  simp [accUpTo, List.range_succ]

/-- Accumulation up to `page` splits off the last page. -/
theorem accUpTo_pred (pages : Nat → List Reply × Nat) (page : Nat)
    (h : 1 ≤ page) :
    accUpTo pages (page - 1) ++ (pages page).1 = accUpTo pages page := by
  obtain ⟨q, rfl⟩ : ∃ q, page = q + 1 := ⟨page - 1, by omega⟩
  simp [accUpTo_succ]

/-- The backfill loop, started at `page` with the replies of the
pages before it accumulated, stops at the first page satisfying a stop
condition (or at the fuel cap), having accumulated exactly the pages
it consumed. -/
theorem backfillAux_spec (pages : Nat → List Reply × Nat) :
    ∀ (fuel page : Nat), 1 ≤ page →
      ∀ (A : List Reply) (k : Nat) (r : StopReason),
        backfillAux pages fuel page (accUpTo pages (page - 1)) = (A, k, r) →
        (page ≤ k ∧
          (∀ p, page ≤ p → p < k → (pages p).1 ≠ [] ∧
            (accUpTo pages p).length < (pages p).2) ∧
          (r = .emptyPage → (pages k).1 = [] ∧ k < page + fuel ∧
            A = accUpTo pages (k - 1)) ∧
          (r = .totalReached → (pages k).1 ≠ [] ∧
            (pages k).2 ≤ (accUpTo pages k).length ∧ k < page + fuel ∧
            A = accUpTo pages k) ∧
          (r = .pageCap → k = page + fuel ∧ A = accUpTo pages (k - 1))) := by
  intro fuel
  induction fuel with
  | zero =>
    intro page hpage A k r heq
    simp only [backfillAux, Prod.mk.injEq] at heq
    obtain ⟨rfl, rfl, rfl⟩ := heq
    refine ⟨Nat.le_refl page, ?_, ?_, ?_, ?_⟩
    · intro p h1 h2; omega
    · intro h; exact absurd h (by decide)
    · intro h; exact absurd h (by decide)
    · intro _; exact ⟨by omega, rfl⟩
  | succ n ih =>
    intro page hpage A k r heq
    simp only [backfillAux] at heq
    by_cases hemp : (pages page).1.isEmpty
    · rw [if_pos hemp] at heq
      simp only [Prod.mk.injEq] at heq
      obtain ⟨rfl, rfl, rfl⟩ := heq
      refine ⟨Nat.le_refl page, ?_, ?_, ?_, ?_⟩
      · intro p h1 h2; omega
      · intro _
        exact ⟨List.isEmpty_iff.mp hemp, by omega, rfl⟩
      · intro h; exact absurd h (by decide)
      · intro h; exact absurd h (by decide)
    · rw [if_neg hemp] at heq
      rw [accUpTo_pred pages page hpage] at heq
      by_cases htot : (pages page).2 ≤ (accUpTo pages page).length
      · rw [if_pos htot] at heq
        simp only [Prod.mk.injEq] at heq
        obtain ⟨rfl, rfl, rfl⟩ := heq
        refine ⟨Nat.le_refl page, ?_, ?_, ?_, ?_⟩
        · intro p h1 h2; omega
        · intro h; exact absurd h (by decide)
        · intro _
          refine ⟨fun hnil => hemp (by simp [hnil]), htot, by omega, rfl⟩
        · intro h; exact absurd h (by decide)
      · rw [if_neg htot] at heq
        have heq' : backfillAux pages n (page + 1)
            (accUpTo pages (page + 1 - 1)) = (A, k, r) := by
          simpa using heq
        obtain ⟨hk, hint, hE, hT, hC⟩ := ih (page + 1) (by omega) A k r heq'
        refine ⟨by omega, ?_, ?_, ?_, ?_⟩
        · intro p h1 h2
          by_cases hp : p = page
          · subst hp
            exact ⟨fun hnil => hemp (by simp [hnil]), by omega⟩
          · exact hint p (by omega) h2
        · intro h
          obtain ⟨h1, h2, h3⟩ := hE h
          exact ⟨h1, by omega, h3⟩
        · intro h
          obtain ⟨h1, h2, h3, h4⟩ := hT h
          exact ⟨h1, h2, by omega, h4⟩
        · intro h
          obtain ⟨h1, h2⟩ := hC h
          exact ⟨by omega, h2⟩

/-- C7: the backfill loop stops exactly at the first page where a
stop condition holds — every earlier page was non-empty and left the
accumulated count below the reported total — and the condition at the
stopping point matches the recorded reason: an empty fetched page, the
accumulated count reaching the total, or the page index passing the
100-page cap. -/
theorem c7_backfill_stop (pages : Nat → List Reply × Nat) (A : List Reply)
    (k : Nat) (r : StopReason) (h : backfill pages = (A, k, r)) :
    (∀ p, 1 ≤ p → p < k → (pages p).1 ≠ [] ∧
      (accUpTo pages p).length < (pages p).2) ∧
    (r = .emptyPage → (pages k).1 = [] ∧ k ≤ max_pages ∧
      A = accUpTo pages (k - 1)) ∧
    (r = .totalReached → (pages k).1 ≠ [] ∧
      (pages k).2 ≤ (accUpTo pages k).length ∧ k ≤ max_pages ∧
      A = accUpTo pages k) ∧
    (r = .pageCap → k = max_pages + 1 ∧ A = accUpTo pages max_pages) := by
  have h0 : backfillAux pages max_pages 1 (accUpTo pages (1 - 1)) = (A, k, r) := by
    simpa [backfill, accUpTo] using h
  obtain ⟨hk, hint, hE, hT, hC⟩ :=
    backfillAux_spec pages max_pages 1 (by decide) A k r h0
  refine ⟨fun p h1 h2 => hint p h1 h2, ?_, ?_, ?_⟩
  · intro hr
    obtain ⟨h1, h2, h3⟩ := hE hr
    exact ⟨h1, by omega, h3⟩
  · intro hr
    obtain ⟨h1, h2, h3, h4⟩ := hT hr
    exact ⟨h1, h2, by omega, h4⟩
  · intro hr
    obtain ⟨h1, h2⟩ := hC hr
    refine ⟨by omega, ?_⟩
    rw [h2]
    congr 1
    omega

/-- A concrete backfill run: two pages of 2 and 3 replies with a
declared total of 5 — the loop stops on page 2 with the total
reached. -/
def pagesEx : Nat → List Reply × Nat := fun p =>
  if p = 1 then ([⟨1, 1⟩, ⟨2, 2⟩], 5)
  else if p = 2 then ([⟨3, 3⟩, ⟨4, 4⟩, ⟨5, 5⟩], 5)
  else ([], 5)

/-- C7 at a concrete input: the run on `pagesEx` stops with reason
`totalReached` at page 2, and the characterization instantiates
there. -/
theorem c7_backfill_stop_witness :
    (pagesEx 2).1 ≠ [] ∧ (pagesEx 2).2 ≤ (accUpTo pagesEx 2).length ∧
    2 ≤ max_pages ∧
    [(⟨1, 1⟩ : Reply), ⟨2, 2⟩, ⟨3, 3⟩, ⟨4, 4⟩, ⟨5, 5⟩] = accUpTo pagesEx 2 :=
  (c7_backfill_stop pagesEx [⟨1, 1⟩, ⟨2, 2⟩, ⟨3, 3⟩, ⟨4, 4⟩, ⟨5, 5⟩] 2
    .totalReached (by decide)).2.2.1 rfl

/-- C10: saving an empty comment batch returns 0 and leaves the whole
database state unchanged: no per-comment upsert runs and the
`video_metadata` record is untouched. -/
theorem c10_empty_batch_noop (bvid : String) (oid : Nat) (title : String)
    (now : Nat) (db : MongoState) :
    save_comments_to_mongodb [] bvid oid title now db = (0, db) := rfl

/-- C8 counterexample: the initial snapshot is not ordered
most-recent-first.  For a working set of two replies at times 100 and
200 the pushed batch is `[time 100, time 200]` — oldest first — so it
fails `Pairwise timeGe` (each entry at least as recent as the next),
the most-recent-first order the claim states. -/
theorem c8_counterexample :
    latestComments [⟨1, 100⟩, ⟨2, 200⟩] = [⟨1, 100⟩, ⟨2, 200⟩] ∧
    ¬ (latestComments [⟨1, 100⟩, ⟨2, 200⟩]).Pairwise timeGe := by
  constructor
  · rfl
  · decide

/-- C8 as amended: after a non-empty backfill the snapshot holds at
most 20 entries, is non-empty, consists of the most recent entries of
the working set (anything left out is no newer than anything kept),
and is pushed oldest-first (creation times non-decreasing along the
batch); entries with equal creation times keep their stable-sort
order — concretely, ids `[3, 5, 2]` all at one timestamp surface as
`[2, 5, 3]`, not in identifier order. -/
theorem c8_snapshot (rs : List Reply) (hne : initialComments rs ≠ []) :
    (latestComments rs).length ≤ 20 ∧
    (latestComments rs).Pairwise (fun a b => a.time ≤ b.time) ∧
    (∀ y ∈ initialComments rs, y ∉ latestComments rs →
      ∀ x ∈ latestComments rs, y.time ≤ x.time) ∧
    latestComments rs ≠ [] ∧
    (latestComments [⟨3, 10⟩, ⟨5, 10⟩, ⟨2, 10⟩]).map CommentInfo.rpid = [2, 5, 3] := by
  have hsorted := List.sorted_insertionSort timeGe (initialComments rs)
  refine ⟨?_, ?_, ?_, ?_, by decide⟩
  · rw [latestComments, List.length_reverse, List.length_take]
    exact Nat.min_le_left _ _
  · rw [latestComments, List.pairwise_reverse]
    exact List.Pairwise.sublist (List.take_sublist _ _) hsorted
  · intro y hy hyn x hx
    have hys : y ∈ (initialComments rs).insertionSort timeGe :=
      (List.mem_insertionSort timeGe).mpr hy
    have hxt : x ∈ ((initialComments rs).insertionSort timeGe).take 20 := by
      rw [latestComments, List.mem_reverse] at hx
      exact hx
    have hynt : y ∉ ((initialComments rs).insertionSort timeGe).take 20 := by
      intro hmem
      exact hyn (by rw [latestComments, List.mem_reverse]; exact hmem)
    have hyd : y ∈ ((initialComments rs).insertionSort timeGe).drop 20 := by
      have hcat : y ∈ ((initialComments rs).insertionSort timeGe).take 20 ++
          ((initialComments rs).insertionSort timeGe).drop 20 := by
        rw [List.take_append_drop]
        exact hys
      rcases List.mem_append.mp hcat with h | h
      · exact absurd h hynt
      · exact h
    have hsplit : List.Pairwise timeGe
        (((initialComments rs).insertionSort timeGe).take 20 ++
          ((initialComments rs).insertionSort timeGe).drop 20) := by
      rw [List.take_append_drop]
      exact hsorted
    exact (List.pairwise_append.mp hsplit).2.2 x hxt y hyd
  · rw [latestComments]
    intro h
    rw [List.reverse_eq_nil_iff] at h
    rcases List.take_eq_nil_iff.mp h with h20 | hnil
    · exact absurd h20 (by decide)
    · have hlen0 : (initialComments rs).length = 0 := by
        rw [← List.length_insertionSort timeGe (initialComments rs), hnil]
        rfl
      exact hne (List.length_eq_zero.mp hlen0)

/-- C8 at a concrete input: the two-reply working set is non-empty
and its snapshot is within the size bound and non-empty. -/
theorem c8_snapshot_witness :
    (latestComments [⟨1, 100⟩, ⟨2, 200⟩]).length ≤ 20 ∧
    latestComments [⟨1, 100⟩, ⟨2, 200⟩] ≠ [] :=
  ⟨(c8_snapshot [⟨1, 100⟩, ⟨2, 200⟩] (by decide)).1,
    (c8_snapshot [⟨1, 100⟩, ⟨2, 200⟩] (by decide)).2.2.2.1⟩

/-- C3 counterexample: on a pool whose credential list is empty,
`execute_with_retry` does not raise a configuration error (or any
error): the `for _ in range(0)` loop never runs, `last_error` stays
`None`, and the call returns `None` — the result is `.ok none`, not
the `"No credentials configured"` error of `get_next`. -/
theorem c3_counterexample :
    (execute_with_retry (⟨[], 0⟩ : CredentialPool Nat)
      (fun _ : KwArgs Nat Unit => (.ok 0 : Except PyError Nat)) ⟨none, ()⟩).attempts = 0 ∧
    (execute_with_retry (⟨[], 0⟩ : CredentialPool Nat)
      (fun _ : KwArgs Nat Unit => (.ok 0 : Except PyError Nat)) ⟨none, ()⟩).result = .ok none ∧
    (execute_with_retry (⟨[], 0⟩ : CredentialPool Nat)
      (fun _ : KwArgs Nat Unit => (.ok 0 : Except PyError Nat)) ⟨none, ()⟩).result ≠
      .error (.other "No credentials configured") := by
  refine ⟨rfl, rfl, ?_⟩
  intro h
  exact Except.noConfusion h

/-- C3 as amended: on an empty credential pool `execute_with_retry`
never invokes the operation (zero attempts, zero backoffs, no calls)
and returns `None` without raising anything. -/
theorem c3_empty_pool_silent [Inhabited Cred]
    (f : KwArgs Cred Arg → Except PyError α) (kw : KwArgs Cred Arg)
    (cursor : Nat) :
    execute_with_retry (⟨[], cursor⟩ : CredentialPool Cred) f kw =
      ⟨.ok none, 0, 0, [], ⟨[], cursor⟩⟩ := rfl

end BiliMonitor
